import Mathlib

/-!
Verification of the manifest patch engine of the chat-storage repository.

The repository patches an Xcode project manifest (a plain text file) by
string search and splice.  We embed the text as a list of characters and
model the Python string primitives used by the scripts:
find / rfind / substring containment / slice-based insertion.
-/

set_option maxRecDepth 10000

/-- Model of Python str.find restricted to searching a whole list:
returns the least index at which pat occurs in hay, or none. -/
def findSub (pat : List Char) : List Char → Option Nat
  | [] => if pat.isEmpty then some 0 else none
  | c :: t =>
    if pat.isPrefixOf (c :: t) then some 0
    else (findSub pat t).map (· + 1)

/-- Model of Python content.find(pat, start): least absolute index at or
above start where pat occurs.  Python returns -1 on failure; we return none. -/
def pyFind (hay pat : List Char) (start : Nat) : Option Nat :=
  (findSub pat (hay.drop start)).map (· + start)

/-- Greatest index at which pat occurs in hay, or none. -/
def rfindSub (pat : List Char) : List Char → Option Nat
  | [] => if pat.isEmpty then some 0 else none
  | c :: t =>
    match rfindSub pat t with
    | some j => some (j + 1)
    | none => if pat.isPrefixOf (c :: t) then some 0 else none

/-- Model of Python content.rfind(pat, 0, stop): greatest index i with the
occurrence of pat fully contained in content[0:stop]. -/
def pyRfind (hay pat : List Char) (stop : Nat) : Option Nat :=
  rfindSub pat (hay.take stop)

/-- pat occurs in hay at index i. -/
def occursAt (hay pat : List Char) (i : Nat) : Bool :=
  pat.isPrefixOf (hay.drop i)

/-- Model of the Python substring test (pat in hay). -/
def containsSub (hay pat : List Char) : Bool :=
  (findSub pat hay).isSome

/-- Lines of a text, splitting at every newline character
(model of how the manifest decomposes into lines). -/
def linesOf : List Char → List (List Char)
  | [] => [[]]
  | c :: t =>
    if c = '\n' then [] :: linesOf t
    else
      match linesOf t with
      | [] => [[c]]
      | l :: ls => (c :: l) :: ls

/-- The splice performed by every insertion step of the scripts:
with e the result of content.find(chr(10), anchorIdx), the script builds
content[:e+1] + entry + newline + content[e+1:].  When the find fails
(Python -1) the slice degenerates to prepending entry + newline. -/
def insertAfterAnchor (s : List Char) (anchorIdx : Nat) (entry : List Char) : List Char :=
  match pyFind s ['\n'] anchorIdx with
  | some e => s.take (e + 1) ++ entry ++ '\n' :: s.drop (e + 1)
  | none => entry ++ '\n' :: s

/-- Outcome of one invocation of a patch script. -/
inductive PatchOutcome where
  | notFound
  | already
  | abortedAt (step : Nat)
  | success (out : List Char)
deriving DecidableEq, Repr

/-- Process exit status of an outcome: sys.exit(1) on notFound and on every
anchor failure, sys.exit(0) on the already-registered no-op, and normal
termination (status 0) after a successful write. -/
def exitCodeOf : PatchOutcome → Nat
  | .notFound => 1
  | .already => 0
  | .abortedAt _ => 1
  | .success _ => 0

/-- The text written to durable storage by an outcome, if any. -/
def writesOf : PatchOutcome → Option (List Char)
  | .success out => some out
  | _ => none

/-- State of the durable manifest after the run, given its prior state. -/
def finalFs (fs : Option (List Char)) : PatchOutcome → Option (List Char)
  | .success out => some out
  | _ => fs

/-! ### add_file_v2.py -/

/-- file_name in add_file_v2.py and add_file_to_project.py. -/
def fileName : List Char := "TransferModels.swift".data

/-- Anchor of step 1 of add_file_v2.py. -/
def v2AnchorRef : List Char :=
  "/* VideoPlayerParams.swift */ = \x7bisa = PBXFileReference".data

/-- Anchor of step 2 of add_file_v2.py. -/
def v2AnchorBuild : List Char :=
  "/* VideoPlayerParams.swift in Sources */ = \x7bisa = PBXBuildFile".data

/-- Anchor locating the Services group (steps 3 of both patch scripts). -/
def anchorServices : List Char := "/* Services */ = \x7b".data

/-- Opening token of a group's child list. -/
def anchorChildren : List Char := "children = (".data

/-- Anchor locating the compilation phase (step 4 of both patch scripts). -/
def anchorPhase : List Char := "isa = PBXSourcesBuildPhase;".data

/-- Opening token of the compilation phase's file list. -/
def anchorFiles : List Char := "files = (".data

/-- file_ref_entry of add_file_v2.py, as a function of the generated
reference identifier. -/
def v2FileRefEntry (r : List Char) : List Char :=
  "\t\t".data ++ r ++
    " /* TransferModels.swift */ = \x7bisa = PBXFileReference; fileEncoding = 4; lastKnownFileType = sourcecode.swift; path = TransferModels.swift; sourceTree = \"<group>\"; \x7d;".data

/-- build_file_entry of both patch scripts (identical f-string): carries the
build identifier, and cross-references the reference identifier in its
fileRef field. -/
def buildFileEntry (r b : List Char) : List Char :=
  "\t\t".data ++ b ++
    " /* TransferModels.swift in Sources */ = \x7bisa = PBXBuildFile; fileRef = ".data
    ++ r ++ " /* TransferModels.swift */; \x7d;".data

/-- group_entry of both patch scripts: identifier + label pair placed in the
Services group's child list. -/
def groupEntry (r : List Char) : List Char :=
  "\t\t\t\t".data ++ r ++ " /* TransferModels.swift */,".data

/-- phase_entry of both patch scripts: identifier + label pair placed in the
compilation phase's file list. -/
def phaseEntry (b : List Char) : List Char :=
  "\t\t\t\t".data ++ b ++ " /* TransferModels.swift in Sources */,".data

/-- The in-memory pipeline of add_file_v2.py, as a function of the manifest
text and the two generated identifiers.  Every anchor failure aborts
(sys.exit(1)) before the single final write. -/
def v2Patch (content r b : List Char) : PatchOutcome :=
  if containsSub content fileName then .already
  else
    match pyFind content v2AnchorRef 0 with
    | none => .abortedAt 1
    | some i1 =>
      let c1 := insertAfterAnchor content i1 (v2FileRefEntry r)
      match pyFind c1 v2AnchorBuild 0 with
      | none => .abortedAt 2
      | some i2 =>
        let c2 := insertAfterAnchor c1 i2 (buildFileEntry r b)
        match pyFind c2 anchorServices 0 with
        | none => .abortedAt 3
        | some si =>
          match pyFind c2 anchorChildren si with
          | none => .abortedAt 4
          | some ci =>
            let c3 := insertAfterAnchor c2 ci (groupEntry r)
            match pyFind c3 anchorPhase 0 with
            | none => .abortedAt 5
            | some pi2 =>
              match pyFind c3 anchorFiles pi2 with
              | none => .abortedAt 6
              | some fi => .success (insertAfterAnchor c3 fi (phaseEntry b))

/-- Whole add_file_v2.py run: the os.path.exists guard aborts with exit 1
before any read when the manifest file is absent. -/
def v2Run (fs : Option (List Char)) (r b : List Char) : PatchOutcome :=
  match fs with
  | none => .notFound
  | some content => v2Patch content r b

/-! ### add_file_to_project.py -/

/-- Anchor of step 1 of add_file_to_project.py. -/
def legacyAnchorRef : List Char := "/* VideoPlayerParams.swift */".data

/-- Anchor of step 2 of add_file_to_project.py. -/
def legacyAnchorBuild : List Char := "/* VideoPlayerParams.swift in Sources */".data

/-- file_ref_entry of add_file_to_project.py (no fileEncoding field). -/
def legacyFileRefEntry (r : List Char) : List Char :=
  "\t\t".data ++ r ++
    " /* TransferModels.swift */ = \x7bisa = PBXFileReference; lastKnownFileType = sourcecode.swift; path = TransferModels.swift; sourceTree = \"<group>\"; \x7d;".data

/-- Step 3 of add_file_to_project.py after the Services group was located
at si: a missing child list inside the Services group is silently skipped
(the inner if of the source has no else branch). -/
def legacyStep3 (c2 r : List Char) (si : Nat) : List Char :=
  match pyFind c2 anchorChildren si with
  | none => c2
  | some ci => insertAfterAnchor c2 ci (groupEntry r)

/-- Step 4 of add_file_to_project.py: a missing compilation phase or file
list is silently skipped (the source has no else branch at all here) and
the write still happens. -/
def legacyStep4 (c3 b : List Char) : List Char :=
  match pyFind c3 anchorPhase 0 with
  | none => c3
  | some pi2 =>
    match pyFind c3 anchorFiles pi2 with
    | none => c3
    | some fi => insertAfterAnchor c3 fi (phaseEntry b)

/-- Steps 3 and 4 of add_file_to_project.py in sequence. -/
def legacyTail (c2 r b : List Char) (si : Nat) : List Char :=
  legacyStep4 (legacyStep3 c2 r si) b

/-- The in-memory pipeline of add_file_to_project.py.  Steps 1 and 2 and a
missing Services group abort; the remaining anchor searches are the silently
skipping legacyTail. -/
def legacyPatch (content r b : List Char) : PatchOutcome :=
  if containsSub content fileName then .already
  else
    match pyFind content legacyAnchorRef 0 with
    | none => .abortedAt 1
    | some i1 =>
      let c1 := insertAfterAnchor content i1 (legacyFileRefEntry r)
      match pyFind c1 legacyAnchorBuild 0 with
      | none => .abortedAt 2
      | some i2 =>
        let c2 := insertAfterAnchor c1 i2 (buildFileEntry r b)
        match pyFind c2 anchorServices 0 with
        | none => .abortedAt 3
        | some si => .success (legacyTail c2 r b si)

/-- Whole add_file_to_project.py run: the open() call on a missing manifest
raises FileNotFoundError, terminating the process with a non-zero status
before anything is read or written. -/
def legacyRun (fs : Option (List Char)) (r b : List Char) : PatchOutcome :=
  match fs with
  | none => .notFound
  | some content => legacyPatch content r b

/-! ### add_to_group.py -/

/-- Hard-coded file_ref_id of add_to_group.py. -/
def agFileRefId : List Char := "4E2B8E372F37294600EE9F33".data

/-- Marker located first by add_to_group.py. -/
def anchorServicesPath : List Char := "path = Services;".data

/-- entry of add_to_group.py (hard-coded identifier + label pair). -/
def agEntry : List Char :=
  "\t\t\t\t".data ++ agFileRefId ++ " /* TransferModels.swift */,".data

/-- add_to_group.py: finds "path = Services;", then the last occurrence of
"children = (" fully before it (content.rfind), then splices the entry after
that line and writes.  The AuthenticationService.swift confirmation in the
source is computed and discarded (its branch is pass), so it does not appear
here.  There is no already-registered check. -/
def agRun (content : List Char) : Option (List Char) :=
  match pyFind content anchorServicesPath 0 with
  | none => none
  | some si =>
    match pyRfind content anchorChildren si with
    | none => none
    | some ci => some (insertAfterAnchor content ci agEntry)

/-! Characterization of the search primitives. -/

theorem findSub_some_occurs {pat hay : List Char} {i : Nat}
    (h : findSub pat hay = some i) : occursAt hay pat i = true := by
  induction hay generalizing i with
  | nil =>
    unfold findSub at h
    cases hp : pat.isEmpty with
    | true =>
      simp [hp] at h
      subst h
      cases pat with
      | nil => rfl
      | cons c t => simp at hp
    | false => simp [hp] at h
  | cons c t ih =>
    unfold findSub at h
    cases hp : pat.isPrefixOf (c :: t) with
    | true =>
      simp only [hp, if_true] at h
      cases h
      simpa only [occursAt, List.drop_zero] using hp
    | false =>
      simp only [hp, Bool.false_eq_true, if_false, Option.map_eq_some'] at h
      obtain ⟨j, hj, rfl⟩ := h
      simpa only [occursAt, List.drop_succ_cons] using ih hj

theorem findSub_some_min {pat hay : List Char} {i : Nat}
    (h : findSub pat hay = some i) : ∀ j, j < i → occursAt hay pat j = false := by
  induction hay generalizing i with
  | nil =>
    unfold findSub at h
    cases hp : pat.isEmpty with
    | true =>
      simp [hp] at h
      subst h
      intro j hj
      omega
    | false => simp [hp] at h
  | cons c t ih =>
    unfold findSub at h
    cases hp : pat.isPrefixOf (c :: t) with
    | true =>
      simp only [hp, if_true] at h
      cases h
      intro j hj
      omega
    | false =>
      simp only [hp, Bool.false_eq_true, if_false, Option.map_eq_some'] at h
      obtain ⟨j', hj', rfl⟩ := h
      intro j hj
      match j with
      | 0 => simpa only [occursAt, List.drop_zero] using hp
      | k + 1 =>
        simpa only [occursAt, List.drop_succ_cons] using ih hj' k (by omega)

theorem findSub_none {pat hay : List Char}
    (h : findSub pat hay = none) : ∀ j, occursAt hay pat j = false := by
  induction hay with
  | nil =>
    unfold findSub at h
    cases hp : pat.isEmpty with
    | true => simp [hp] at h
    | false =>
      intro j
      cases pat with
      | nil => simp at hp
      | cons c t => simp [occursAt, List.isPrefixOf]
  | cons c t ih =>
    unfold findSub at h
    cases hp : pat.isPrefixOf (c :: t) with
    | true => simp [hp] at h
    | false =>
      simp only [hp, Bool.false_eq_true, if_false, Option.map_eq_none'] at h
      intro j
      match j with
      | 0 => simpa only [occursAt, List.drop_zero] using hp
      | k + 1 => simpa only [occursAt, List.drop_succ_cons] using ih h k

theorem occursAt_drop_shift (hay pat : List Char) (start j : Nat) :
    occursAt (hay.drop start) pat j = occursAt hay pat (start + j) := by
  simp [occursAt, List.drop_drop, Nat.add_comm]

theorem pyFind_some {hay pat : List Char} {start i : Nat}
    (h : pyFind hay pat start = some i) :
    start ≤ i ∧ occursAt hay pat i = true ∧
      ∀ j, start ≤ j → j < i → occursAt hay pat j = false := by
  unfold pyFind at h
  cases hf : findSub pat (hay.drop start) with
  | none => simp [hf] at h
  | some i' =>
    simp [hf] at h
    subst h
    refine ⟨by omega, ?_, ?_⟩
    · have := findSub_some_occurs hf
      rwa [occursAt_drop_shift, Nat.add_comm] at this
    · intro j h1 h2
      have := findSub_some_min hf (j - start) (by omega)
      rwa [occursAt_drop_shift, Nat.add_sub_cancel' h1] at this

theorem pyFind_none {hay pat : List Char} {start : Nat}
    (h : pyFind hay pat start = none) :
    ∀ j, start ≤ j → occursAt hay pat j = false := by
  unfold pyFind at h
  cases hf : findSub pat (hay.drop start) with
  | some i' => simp [hf] at h
  | none =>
    intro j hj
    have := findSub_none hf (j - start)
    rwa [occursAt_drop_shift, Nat.add_sub_cancel' hj] at this

theorem rfindSub_none {pat hay : List Char}
    (h : rfindSub pat hay = none) : ∀ j, occursAt hay pat j = false := by
  induction hay with
  | nil =>
    unfold rfindSub at h
    cases hp : pat.isEmpty with
    | true => simp [hp] at h
    | false =>
      intro j
      cases pat with
      | nil => simp at hp
      | cons c t => simp [occursAt, List.isPrefixOf]
  | cons c t ih =>
    unfold rfindSub at h
    cases hr : rfindSub pat t with
    | some j' => simp [hr] at h
    | none =>
      rw [hr] at h
      cases hp : pat.isPrefixOf (c :: t) with
      | true => simp [hp] at h
      | false =>
        intro j
        match j with
        | 0 => simpa only [occursAt, List.drop_zero] using hp
        | k + 1 => simpa only [occursAt, List.drop_succ_cons] using ih hr k

theorem rfindSub_some_occurs {pat hay : List Char} {i : Nat}
    (h : rfindSub pat hay = some i) : occursAt hay pat i = true := by
  induction hay generalizing i with
  | nil =>
    unfold rfindSub at h
    cases hp : pat.isEmpty with
    | true =>
      simp [hp] at h
      subst h
      cases pat with
      | nil => rfl
      | cons c t => simp at hp
    | false => simp [hp] at h
  | cons c t ih =>
    unfold rfindSub at h
    cases hr : rfindSub pat t with
    | some j' =>
      rw [hr] at h
      cases h
      simpa only [occursAt, List.drop_succ_cons] using ih hr
    | none =>
      rw [hr] at h
      cases hp : pat.isPrefixOf (c :: t) with
      | true =>
        simp only [hp, if_true] at h
        cases h
        simpa only [occursAt, List.drop_zero] using hp
      | false => simp [hp] at h

theorem rfindSub_some_max {pat hay : List Char} {i : Nat} (hp0 : pat ≠ [])
    (h : rfindSub pat hay = some i) :
    ∀ j, occursAt hay pat j = true → j ≤ i := by
  induction hay generalizing i with
  | nil =>
    unfold rfindSub at h
    cases hp : pat.isEmpty with
    | true =>
      cases pat with
      | nil => exact absurd rfl hp0
      | cons c t => simp at hp
    | false => simp [hp] at h
  | cons c t ih =>
    unfold rfindSub at h
    cases hr : rfindSub pat t with
    | some j' =>
      rw [hr] at h
      cases h
      intro j hj
      match j with
      | 0 => omega
      | k + 1 =>
        have := ih hr k (by simpa only [occursAt, List.drop_succ_cons] using hj)
        omega
    | none =>
      rw [hr] at h
      cases hp : pat.isPrefixOf (c :: t) with
      | true =>
        simp only [hp, if_true] at h
        cases h
        intro j hj
        match j with
        | 0 => omega
        | k + 1 =>
          have hk := rfindSub_none hr k
          rw [show occursAt (c :: t) pat (k + 1) = occursAt t pat k from by
            simp only [occursAt, List.drop_succ_cons]] at hj
          rw [hk] at hj
          cases hj
      | false => simp [hp] at h

/-! Bridges between occurrences, substring containment and list splitting. -/

theorem sub_of_occursAt {hay pat : List Char} {i : Nat}
    (h : occursAt hay pat i = true) : pat <:+: hay := by
  rw [occursAt, List.isPrefixOf_iff_prefix] at h
  obtain ⟨t, ht⟩ := h
  refine ⟨hay.take i, t, ?_⟩
  rw [List.append_assoc, ht, List.take_append_drop]

theorem occursAt_of_sub {hay pat : List Char} (h : pat <:+: hay) :
    ∃ i, occursAt hay pat i = true := by
  obtain ⟨s, t, rfl⟩ := h
  refine ⟨s.length, ?_⟩
  rw [occursAt, List.isPrefixOf_iff_prefix, List.append_assoc, List.drop_left]
  exact ⟨t, rfl⟩

theorem containsSub_true_iff {hay pat : List Char} :
    containsSub hay pat = true ↔ pat <:+: hay := by
  unfold containsSub
  constructor
  · intro h
    cases hf : findSub pat hay with
    | none => rw [hf] at h; cases h
    | some i => exact sub_of_occursAt (findSub_some_occurs hf)
  · intro h
    obtain ⟨i, hi⟩ := occursAt_of_sub h
    cases hf : findSub pat hay with
    | some j => rfl
    | none => rw [findSub_none hf i] at hi; cases hi

theorem occursAt_single {s : List Char} {c : Char} {i : Nat} :
    occursAt s [c] i = true ↔ s[i]? = some c := by
  rw [occursAt, List.isPrefixOf_iff_prefix]
  constructor
  · rintro ⟨t, ht⟩
    have : s[i + 0]? = some c := by
      rw [← List.getElem?_drop, ← ht]
      simp
    simpa using this
  · intro h
    obtain ⟨hlt, hv⟩ := List.getElem?_eq_some.mp h
    exact ⟨s.drop (i + 1), by rw [List.drop_eq_getElem_cons hlt, hv]; rfl⟩

theorem occursAt_take_iff {hay pat : List Char} {stop i : Nat} (hp : pat ≠ []) :
    occursAt (hay.take stop) pat i = true ↔
      occursAt hay pat i = true ∧ i + pat.length ≤ stop := by
  have hlen : 0 < pat.length := List.length_pos.mpr hp
  rw [occursAt, occursAt, List.isPrefixOf_iff_prefix, List.isPrefixOf_iff_prefix,
    List.drop_take, List.prefix_take_iff]
  constructor
  · rintro ⟨h1, h2⟩
    exact ⟨h1, by omega⟩
  · rintro ⟨h1, h2⟩
    refine ⟨h1, ?_⟩
    have := h1.length_le
    simp only [List.length_drop] at this
    omega

theorem pyRfind_some {hay pat : List Char} {stop i : Nat} (hp : pat ≠ [])
    (h : pyRfind hay pat stop = some i) :
    occursAt hay pat i = true ∧ i + pat.length ≤ stop ∧
      ∀ j, occursAt hay pat j = true → j + pat.length ≤ stop → j ≤ i := by
  unfold pyRfind at h
  have h1 := rfindSub_some_occurs h
  rw [occursAt_take_iff hp] at h1
  refine ⟨h1.1, h1.2, ?_⟩
  intro j hj hjs
  exact rfindSub_some_max hp h j ((occursAt_take_iff hp).mpr ⟨hj, hjs⟩)

theorem pyRfind_isSome {hay pat : List Char} {stop j : Nat} (hp : pat ≠ [])
    (h1 : occursAt hay pat j = true) (h2 : j + pat.length ≤ stop) :
    (pyRfind hay pat stop).isSome = true := by
  unfold pyRfind
  cases hr : rfindSub pat (hay.take stop) with
  | some i => rfl
  | none =>
    have hc := rfindSub_none hr j
    rw [(occursAt_take_iff hp).mpr ⟨h1, h2⟩] at hc
    cases hc

/-! Facts about the insertion splice. -/

theorem nl_at_of_pyFind {s : List Char} {i e : Nat}
    (h : pyFind s ['\n'] i = some e) : s[e]? = some '\n' :=
  occursAt_single.mp (pyFind_some h).2.1

theorem take_succ_of_nl {s : List Char} {e : Nat} (h : s[e]? = some '\n') :
    s.take (e + 1) = s.take e ++ ['\n'] := by
  rw [List.take_succ, h]
  rfl

theorem decomp_of_nl {s : List Char} {e : Nat} (h : s[e]? = some '\n') :
    s = s.take e ++ '\n' :: s.drop (e + 1) := by
  obtain ⟨hlt, hv⟩ := List.getElem?_eq_some.mp h
  conv_lhs => rw [← List.take_append_drop e s]
  rw [List.drop_eq_getElem_cons hlt, hv]

theorem insertAfterAnchor_eq_some {s : List Char} {i e : Nat} (entry : List Char)
    (h : pyFind s ['\n'] i = some e) :
    insertAfterAnchor s i entry = s.take (e + 1) ++ entry ++ '\n' :: s.drop (e + 1) := by
  unfold insertAfterAnchor
  rw [h]

theorem insertAfterAnchor_eq_none {s : List Char} {i : Nat} (entry : List Char)
    (h : pyFind s ['\n'] i = none) :
    insertAfterAnchor s i entry = entry ++ '\n' :: s := by
  unfold insertAfterAnchor
  rw [h]

theorem insert_has_entry (s entry : List Char) (i : Nat) :
    entry ++ ['\n'] <:+: insertAfterAnchor s i entry := by
  cases h : pyFind s ['\n'] i with
  | none =>
    rw [insertAfterAnchor_eq_none entry h]
    exact ⟨[], s, by simp⟩
  | some e =>
    rw [insertAfterAnchor_eq_some entry h]
    exact ⟨s.take (e + 1), s.drop (e + 1), by simp⟩

theorem insert_keeps {w s : List Char} (entry : List Char) (i : Nat)
    (hw : '\n' ∉ w.dropLast) (h : w <:+: s) :
    w <:+: insertAfterAnchor s i entry := by
  obtain ⟨t, u, rfl⟩ := h
  cases hf : pyFind (t ++ w ++ u) ['\n'] i with
  | none =>
    rw [insertAfterAnchor_eq_none entry hf]
    exact ⟨entry ++ '\n' :: t, u, by simp⟩
  | some e =>
    rw [insertAfterAnchor_eq_some entry hf]
    have hnl : (t ++ w ++ u)[e]? = some '\n' := nl_at_of_pyFind hf
    by_cases h1 : e + 1 ≤ t.length
    · refine ⟨t.take (e + 1) ++ entry ++ '\n' :: t.drop (e + 1), u, ?_⟩
      rw [List.take_append_of_le_length
          (by simp only [List.length_append]; omega),
        List.take_append_of_le_length h1,
        List.drop_append_of_le_length
          (by simp only [List.length_append]; omega),
        List.drop_append_of_le_length h1]
      simp [List.append_assoc]
    · by_cases h2 : t.length + w.length ≤ e + 1
      · refine ⟨t, u.take (e + 1 - (t.length + w.length)) ++ entry ++
          '\n' :: u.drop (e + 1 - (t.length + w.length)), ?_⟩
        have htw : List.take (e + 1) (t ++ w) = t ++ w :=
          List.take_of_length_le (by simp only [List.length_append]; omega)
        have hdw : List.drop (e + 1) (t ++ w) = [] :=
          List.drop_of_length_le (by simp only [List.length_append]; omega)
        rw [List.take_append_eq_append_take, htw,
          List.drop_append_eq_append_drop, hdw]
        simp [List.append_assoc, List.length_append]
      · exfalso
        have hwlen : 2 ≤ w.length := by omega
        rw [List.append_assoc] at hnl
        rw [List.getElem?_append_right (by omega : t.length ≤ e)] at hnl
        rw [List.getElem?_append_left (by omega : e - t.length < w.length)] at hnl
        have hk : (w.take (w.length - 1))[e - t.length]? = some '\n' := by
          rw [List.getElem?_take, if_pos (by omega : e - t.length < w.length - 1)]
          exact hnl
        have : '\n' ∈ w.dropLast := by
          rw [List.dropLast_eq_take]
          exact List.getElem?_mem hk
        exact hw this

/-! Facts about line decomposition. -/

theorem linesOf_cons_nl (t : List Char) : linesOf ('\n' :: t) = [] :: linesOf t := by
  simp [linesOf]

theorem linesOf_cons_of_ne {c : Char} (t : List Char) (hc : c ≠ '\n')
    {m : List Char} {ms : List (List Char)} (hm : linesOf t = m :: ms) :
    linesOf (c :: t) = (c :: m) :: ms := by
  simp only [linesOf, if_neg hc, hm]

theorem linesOf_head_pre (s : List Char) :
    ∃ l ls, linesOf s = l :: ls ∧ l <+: s := by
  induction s with
  | nil => exact ⟨[], [], rfl, ⟨[], rfl⟩⟩
  | cons c t ih =>
    by_cases h : c = '\n'
    · subst h
      exact ⟨[], linesOf t, by simp [linesOf], ⟨'\n' :: t, rfl⟩⟩
    · obtain ⟨l, ls, hl, hp⟩ := ih
      obtain ⟨t', ht'⟩ := hp
      refine ⟨c :: l, ls, ?_, ⟨t', by simp [← ht']⟩⟩
      simp only [linesOf, if_neg h, hl]

theorem mem_linesOf_sub {s l : List Char} (h : l ∈ linesOf s) : l <:+: s := by
  induction s generalizing l with
  | nil =>
    simp [linesOf] at h
    subst h
    exact ⟨[], [], rfl⟩
  | cons c t ih =>
    by_cases hc : c = '\n'
    · subst hc
      rw [linesOf_cons_nl] at h
      rcases List.mem_cons.mp h with rfl | h
      · exact ⟨[], '\n' :: t, rfl⟩
      · obtain ⟨a, b, rfl⟩ := ih h
        exact ⟨'\n' :: a, b, by simp⟩
    · obtain ⟨m, ms, hm, hp⟩ := linesOf_head_pre t
      rw [linesOf_cons_of_ne _ hc hm] at h
      rcases List.mem_cons.mp h with rfl | h
      · obtain ⟨t', ht'⟩ := hp
        exact ⟨[], t', by simp [← ht']⟩
      · have hmem : l ∈ linesOf t := by
          rw [hm]
          exact List.mem_cons_of_mem _ h
        obtain ⟨a, b, rfl⟩ := ih hmem
        exact ⟨c :: a, b, by simp⟩

theorem lines_append_nl (xs : List Char) :
    ∃ m ms, linesOf (xs ++ ['\n']) = m :: ms ∧ ms ≠ [] := by
  induction xs with
  | nil => exact ⟨[], [[]], by simp [linesOf], by simp⟩
  | cons c t ih =>
    obtain ⟨m, ms, hm, hne⟩ := ih
    by_cases hc : c = '\n'
    · subst hc
      exact ⟨[], m :: ms, by simp [linesOf, hm], by simp⟩
    · exact ⟨c :: m, ms, by simp [linesOf, hc, hm], hne⟩

theorem lines_split (xs ys : List Char) :
    linesOf (xs ++ '\n' :: ys) = (linesOf (xs ++ ['\n'])).dropLast ++ linesOf ys := by
  induction xs with
  | nil => simp [linesOf]
  | cons c t ih =>
    obtain ⟨m, ms, hm, hne⟩ := lines_append_nl t
    cases ms with
    | nil => exact absurd rfl hne
    | cons m2 ms2 =>
      by_cases hc : c = '\n'
      · subst hc
        have l1 : linesOf (('\n' :: t) ++ '\n' :: ys)
            = [] :: linesOf (t ++ '\n' :: ys) := by
          rw [List.cons_append]
          exact linesOf_cons_nl _
        have l2 : linesOf (('\n' :: t) ++ ['\n']) = [] :: linesOf (t ++ ['\n']) := by
          rw [List.cons_append]
          exact linesOf_cons_nl _
        rw [l1, l2, ih, hm]
        rfl
      · have hlhs : linesOf (t ++ '\n' :: ys)
            = m :: (List.dropLast (m2 :: ms2) ++ linesOf ys) := by
          rw [ih, hm]
          rfl
        have l1 : linesOf ((c :: t) ++ '\n' :: ys)
            = (c :: m) :: (List.dropLast (m2 :: ms2) ++ linesOf ys) := by
          rw [List.cons_append]
          exact linesOf_cons_of_ne _ hc hlhs
        have l2 : linesOf ((c :: t) ++ ['\n']) = (c :: m) :: (m2 :: ms2) := by
          rw [List.cons_append]
          exact linesOf_cons_of_ne _ hc hm
        rw [l1, l2]
        rfl

theorem lines_no_nl {xs : List Char} (h : '\n' ∉ xs) (ys : List Char) :
    linesOf (xs ++ '\n' :: ys) = xs :: linesOf ys := by
  induction xs with
  | nil => simp [linesOf]
  | cons c t ih =>
    have hc : c ≠ '\n' := by
      intro hc
      exact h (by rw [hc]; exact List.mem_cons_self '\n' t)
    have ht : '\n' ∉ t := fun hm => h (List.mem_cons_of_mem c hm)
    rw [List.cons_append]
    exact linesOf_cons_of_ne _ hc (ih ht)

theorem insert_lines (s entry : List Char) (i : Nat) (hne : '\n' ∉ entry) :
    ∃ P Q, linesOf s = P ++ Q ∧
      linesOf (insertAfterAnchor s i entry) = P ++ entry :: Q := by
  cases hf : pyFind s ['\n'] i with
  | none =>
    rw [insertAfterAnchor_eq_none entry hf]
    exact ⟨[], linesOf s, by simp, by simpa using lines_no_nl hne s⟩
  | some e =>
    rw [insertAfterAnchor_eq_some entry hf]
    have hnl := nl_at_of_pyFind hf
    refine ⟨(linesOf (s.take e ++ ['\n'])).dropLast, linesOf (s.drop (e + 1)), ?_, ?_⟩
    · conv_lhs => rw [decomp_of_nl hnl]
      exact lines_split _ _
    · rw [take_succ_of_nl hnl]
      have hassoc : (s.take e ++ ['\n']) ++ entry ++ '\n' :: s.drop (e + 1)
          = s.take e ++ '\n' :: (entry ++ '\n' :: s.drop (e + 1)) := by simp
      rw [hassoc, lines_split, lines_no_nl hne]

theorem insert_lines_facts (s entry : List Char) (i : Nat) (hne : '\n' ∉ entry) :
    List.Sublist (linesOf s) (linesOf (insertAfterAnchor s i entry)) ∧
    Multiset.ofList (linesOf (insertAfterAnchor s i entry))
      = entry ::ₘ Multiset.ofList (linesOf s) := by
  obtain ⟨P, Q, h1, h2⟩ := insert_lines s entry i hne
  constructor
  · rw [h1, h2]
    exact (List.sublist_cons_self entry Q).append_left P
  · rw [h1, h2]
    have hperm : List.Perm (P ++ entry :: Q) (entry :: (P ++ Q)) := List.perm_middle
    calc Multiset.ofList (P ++ entry :: Q)
        = Multiset.ofList (entry :: (P ++ Q)) := Multiset.coe_eq_coe.mpr hperm
      _ = entry ::ₘ Multiset.ofList (P ++ Q) := (Multiset.cons_coe _ _).symm

/-! Helper facts about substring containment under appends. -/

theorem sub_append_left {w v : List Char} (p : List Char) (h : w <:+: v) :
    w <:+: p ++ v := by
  obtain ⟨s, t, rfl⟩ := h
  exact ⟨p ++ s, t, by simp [List.append_assoc]⟩

theorem sub_append_right {w v : List Char} (q : List Char) (h : w <:+: v) :
    w <:+: v ++ q := by
  obtain ⟨s, t, rfl⟩ := h
  exact ⟨s, t ++ q, by simp [List.append_assoc]⟩

theorem sub_refl (w : List Char) : w <:+: w := ⟨[], [], by simp⟩

/-! The filename label occurs inside each of the four formatted entries. -/

theorem fileName_sub_v2FileRefEntry (r : List Char) : fileName <:+: v2FileRefEntry r := by
  unfold v2FileRefEntry
  exact sub_append_left _ (containsSub_true_iff.mp (by decide))

theorem fileName_sub_legacyFileRefEntry (r : List Char) :
    fileName <:+: legacyFileRefEntry r := by
  unfold legacyFileRefEntry
  exact sub_append_left _ (containsSub_true_iff.mp (by decide))

theorem fileName_sub_buildFileEntry (r b : List Char) :
    fileName <:+: buildFileEntry r b := by
  unfold buildFileEntry
  exact sub_append_left _ (containsSub_true_iff.mp (by decide))

theorem fileName_sub_groupEntry (r : List Char) : fileName <:+: groupEntry r := by
  unfold groupEntry
  exact sub_append_left _ (containsSub_true_iff.mp (by decide))

theorem fileName_sub_phaseEntry (b : List Char) : fileName <:+: phaseEntry b := by
  unfold phaseEntry
  exact sub_append_left _ (containsSub_true_iff.mp (by decide))

/-! The formatted entries contain no newline when the identifiers do not. -/

theorem nl_not_mem_v2FileRefEntry {r : List Char} (hr : '\n' ∉ r) :
    '\n' ∉ v2FileRefEntry r := by
  unfold v2FileRefEntry
  intro hm
  rcases List.mem_append.mp hm with h1 | h2
  · rcases List.mem_append.mp h1 with h3 | h4
    · exact absurd h3 (by decide)
    · exact hr h4
  · exact absurd h2 (by decide)

theorem nl_not_mem_buildFileEntry {r b : List Char} (hr : '\n' ∉ r) (hb : '\n' ∉ b) :
    '\n' ∉ buildFileEntry r b := by
  unfold buildFileEntry
  intro hm
  rcases List.mem_append.mp hm with h1 | h2
  · rcases List.mem_append.mp h1 with h3 | h4
    · rcases List.mem_append.mp h3 with h5 | h6
      · rcases List.mem_append.mp h5 with h7 | h8
        · exact absurd h7 (by decide)
        · exact hb h8
      · exact absurd h6 (by decide)
    · exact hr h4
  · exact absurd h2 (by decide)

theorem nl_not_mem_groupEntry {r : List Char} (hr : '\n' ∉ r) :
    '\n' ∉ groupEntry r := by
  unfold groupEntry
  intro hm
  rcases List.mem_append.mp hm with h1 | h2
  · rcases List.mem_append.mp h1 with h3 | h4
    · exact absurd h3 (by decide)
    · exact hr h4
  · exact absurd h2 (by decide)

theorem nl_not_mem_phaseEntry {b : List Char} (hb : '\n' ∉ b) :
    '\n' ∉ phaseEntry b := by
  unfold phaseEntry
  intro hm
  rcases List.mem_append.mp hm with h1 | h2
  · rcases List.mem_append.mp h1 with h3 | h4
    · exact absurd h3 (by decide)
    · exact hb h4
  · exact absurd h2 (by decide)

theorem nl_not_mem_legacyFileRefEntry {r : List Char} (hr : '\n' ∉ r) :
    '\n' ∉ legacyFileRefEntry r := by
  unfold legacyFileRefEntry
  intro hm
  rcases List.mem_append.mp hm with h1 | h2
  · rcases List.mem_append.mp h1 with h3 | h4
    · exact absurd h3 (by decide)
    · exact hr h4
  · exact absurd h2 (by decide)

theorem nl_not_mem_dropLast_concat {w : List Char} (h : '\n' ∉ w) :
    '\n' ∉ (w ++ ['\n']).dropLast := by
  rw [List.dropLast_concat]
  exact h

/-! Inversion of a successful add_file_v2.py run into its six anchor
resolutions and four insertions. -/

theorem v2Patch_success_elim {content r b out : List Char}
    (h : v2Patch content r b = .success out) :
    containsSub content fileName = false ∧
    ∃ i1 i2 si ci pi2 fi,
      pyFind content v2AnchorRef 0 = some i1 ∧
      pyFind (insertAfterAnchor content i1 (v2FileRefEntry r)) v2AnchorBuild 0
        = some i2 ∧
      pyFind (insertAfterAnchor (insertAfterAnchor content i1 (v2FileRefEntry r)) i2
        (buildFileEntry r b)) anchorServices 0 = some si ∧
      pyFind (insertAfterAnchor (insertAfterAnchor content i1 (v2FileRefEntry r)) i2
        (buildFileEntry r b)) anchorChildren si = some ci ∧
      pyFind (insertAfterAnchor (insertAfterAnchor (insertAfterAnchor content i1
        (v2FileRefEntry r)) i2 (buildFileEntry r b)) ci (groupEntry r))
        anchorPhase 0 = some pi2 ∧
      pyFind (insertAfterAnchor (insertAfterAnchor (insertAfterAnchor content i1
        (v2FileRefEntry r)) i2 (buildFileEntry r b)) ci (groupEntry r))
        anchorFiles pi2 = some fi ∧
      out = insertAfterAnchor (insertAfterAnchor (insertAfterAnchor (insertAfterAnchor
        content i1 (v2FileRefEntry r)) i2 (buildFileEntry r b)) ci (groupEntry r))
        fi (phaseEntry b) := by
  cases hc : containsSub content fileName with
  | true => simp [v2Patch, hc] at h
  | false =>
    simp only [v2Patch, hc, Bool.false_eq_true, if_false] at h
    cases h1 : pyFind content v2AnchorRef 0 with
    | none => simp [h1] at h
    | some i1 =>
      simp only [h1] at h
      cases h2 : pyFind (insertAfterAnchor content i1 (v2FileRefEntry r))
          v2AnchorBuild 0 with
      | none => simp [h2] at h
      | some i2 =>
        simp only [h2] at h
        cases h3 : pyFind (insertAfterAnchor (insertAfterAnchor content i1
            (v2FileRefEntry r)) i2 (buildFileEntry r b)) anchorServices 0 with
        | none => simp [h3] at h
        | some si =>
          simp only [h3] at h
          cases h4 : pyFind (insertAfterAnchor (insertAfterAnchor content i1
              (v2FileRefEntry r)) i2 (buildFileEntry r b)) anchorChildren si with
          | none => simp [h4] at h
          | some ci =>
            simp only [h4] at h
            cases h5 : pyFind (insertAfterAnchor (insertAfterAnchor (insertAfterAnchor
                content i1 (v2FileRefEntry r)) i2 (buildFileEntry r b)) ci
                (groupEntry r)) anchorPhase 0 with
            | none => simp [h5] at h
            | some pi2 =>
              simp only [h5] at h
              cases h6 : pyFind (insertAfterAnchor (insertAfterAnchor (insertAfterAnchor
                  content i1 (v2FileRefEntry r)) i2 (buildFileEntry r b)) ci
                  (groupEntry r)) anchorFiles pi2 with
              | none => simp [h6] at h
              | some fi =>
                simp only [h6, PatchOutcome.success.injEq] at h
                exact ⟨rfl, i1, i2, si, ci, pi2, fi, rfl, h2, h3, h4, h5, h6, h.symm⟩

/-! Inversion of a successful add_file_to_project.py run into its three
aborting anchor resolutions; the silently skipping steps 3 and 4 stay
inside legacyTail. -/

theorem legacyPatch_success_elim {content r b out : List Char}
    (h : legacyPatch content r b = .success out) :
    containsSub content fileName = false ∧
    ∃ i1 i2 si,
      pyFind content legacyAnchorRef 0 = some i1 ∧
      pyFind (insertAfterAnchor content i1 (legacyFileRefEntry r)) legacyAnchorBuild 0
        = some i2 ∧
      pyFind (insertAfterAnchor (insertAfterAnchor content i1 (legacyFileRefEntry r))
        i2 (buildFileEntry r b)) anchorServices 0 = some si ∧
      out = legacyTail (insertAfterAnchor (insertAfterAnchor content i1
        (legacyFileRefEntry r)) i2 (buildFileEntry r b)) r b si := by
  cases hc : containsSub content fileName with
  | true => simp [legacyPatch, hc] at h
  | false =>
    simp only [legacyPatch, hc, Bool.false_eq_true, if_false] at h
    cases h1 : pyFind content legacyAnchorRef 0 with
    | none => simp [h1] at h
    | some i1 =>
      simp only [h1] at h
      cases h2 : pyFind (insertAfterAnchor content i1 (legacyFileRefEntry r))
          legacyAnchorBuild 0 with
      | none => simp [h2] at h
      | some i2 =>
        simp only [h2] at h
        cases h3 : pyFind (insertAfterAnchor (insertAfterAnchor content i1
            (legacyFileRefEntry r)) i2 (buildFileEntry r b)) anchorServices 0 with
        | none => simp [h3] at h
        | some si =>
          simp only [h3, PatchOutcome.success.injEq] at h
          exact ⟨rfl, i1, i2, si, rfl, h2, h3, h.symm⟩

/-! The silently skipping steps of add_file_to_project.py preserve
newline-free substrings just like the other insertion steps. -/

theorem legacyStep3_keeps {w c2 : List Char} (r : List Char) (si : Nat)
    (hw : '\n' ∉ w.dropLast) (h : w <:+: c2) : w <:+: legacyStep3 c2 r si := by
  unfold legacyStep3
  cases h4 : pyFind c2 anchorChildren si with
  | none => exact h
  | some ci => exact insert_keeps (groupEntry r) ci hw h

theorem legacyStep4_keeps {w c3 : List Char} (b : List Char)
    (hw : '\n' ∉ w.dropLast) (h : w <:+: c3) : w <:+: legacyStep4 c3 b := by
  unfold legacyStep4
  cases h5 : pyFind c3 anchorPhase 0 with
  | none => exact h
  | some pi2 =>
    show w <:+: (match pyFind c3 anchorFiles pi2 with
      | none => c3
      | some fi => insertAfterAnchor c3 fi (phaseEntry b))
    cases h6 : pyFind c3 anchorFiles pi2 with
    | none => exact h
    | some fi => exact insert_keeps (phaseEntry b) fi hw h

/-! ### Sanity checks on a small concrete manifest -/

def demoManifest : List Char :=
  ("// !$*UTF8*$!\n"
    ++ "\t\tAAAA0000 /* VideoPlayerParams.swift */ = \x7bisa = PBXFileReference; path = VideoPlayerParams.swift; \x7d;\n"
    ++ "\t\tBBBB0000 /* VideoPlayerParams.swift in Sources */ = \x7bisa = PBXBuildFile; fileRef = AAAA0000; \x7d;\n"
    ++ "\t\tCCCC0000 /* Services */ = \x7b\n"
    ++ "\t\t\tisa = PBXGroup;\n"
    ++ "\t\t\tchildren = (\n"
    ++ "\t\t\t\tDDDD0000 /* OldService.swift */,\n"
    ++ "\t\t\t);\n"
    ++ "\t\t\tpath = Services;\n"
    ++ "\t\t\x7d;\n"
    ++ "\t\tEEEE0000 /* Sources */ = \x7b\n"
    ++ "\t\t\tisa = PBXSourcesBuildPhase;\n"
    ++ "\t\t\tfiles = (\n"
    ++ "\t\t\t\tBBBB0000 /* VideoPlayerParams.swift in Sources */,\n"
    ++ "\t\t\t);\n"
    ++ "\t\t\x7d;\n").data

def demoIdR : List Char := "1111111111111111111111R1".data
def demoIdB : List Char := "2222222222222222222222B2".data

example : containsSub demoManifest fileName = false := by decide
example : (v2Patch demoManifest demoIdR demoIdB matches PatchOutcome.success _) := by decide
example : (legacyPatch demoManifest demoIdR demoIdB matches PatchOutcome.success _) := by decide
example : (agRun demoManifest).isSome := by decide

/-! The anchor occurrence lies entirely on the line that ends at the first
newline found at or after it. -/

theorem anchor_line_spans {s pat : List Char} {i e : Nat} (hnp : '\n' ∉ pat)
    (ho : occursAt s pat i = true) (he : pyFind s ['\n'] i = some e) :
    i + pat.length ≤ e + 1 := by
  by_contra hlt
  push_neg at hlt
  have h1 := (pyFind_some he).1
  have hnl : s[e]? = some '\n' := nl_at_of_pyFind he
  have hk : e - i < pat.length := by omega
  rw [occursAt, List.isPrefixOf_iff_prefix] at ho
  obtain ⟨rest, hrest⟩ := ho
  have hget : s[e]? = pat[e - i]? := by
    have hd : (s.drop i)[e - i]? = s[i + (e - i)]? := List.getElem?_drop s i (e - i)
    rw [show i + (e - i) = e from by omega] at hd
    rw [← hd, ← hrest, List.getElem?_append_left hk]
  rw [hnl] at hget
  exact hnp (List.getElem?_mem hget.symm)

/-! Nondeterministic run relation for add_file_v2.py: the two identifiers
are parameters (chosen by the uuid generator); every other step is fixed by
the manifest text. -/

inductive V2RunRel (r b : List Char) : Option (List Char) → PatchOutcome → Prop where
  | notFound : V2RunRel r b none .notFound
  | already (c : List Char) (h : containsSub c fileName = true) :
      V2RunRel r b (some c) .already
  | abortRef (c : List Char) (h : containsSub c fileName = false)
      (h1 : pyFind c v2AnchorRef 0 = none) :
      V2RunRel r b (some c) (.abortedAt 1)
  | abortBuild (c : List Char) (i1 : Nat) (h : containsSub c fileName = false)
      (h1 : pyFind c v2AnchorRef 0 = some i1)
      (h2 : pyFind (insertAfterAnchor c i1 (v2FileRefEntry r)) v2AnchorBuild 0 = none) :
      V2RunRel r b (some c) (.abortedAt 2)
  | abortServices (c : List Char) (i1 i2 : Nat) (h : containsSub c fileName = false)
      (h1 : pyFind c v2AnchorRef 0 = some i1)
      (h2 : pyFind (insertAfterAnchor c i1 (v2FileRefEntry r)) v2AnchorBuild 0 = some i2)
      (h3 : pyFind (insertAfterAnchor (insertAfterAnchor c i1 (v2FileRefEntry r)) i2
        (buildFileEntry r b)) anchorServices 0 = none) :
      V2RunRel r b (some c) (.abortedAt 3)
  | abortChildren (c : List Char) (i1 i2 si : Nat) (h : containsSub c fileName = false)
      (h1 : pyFind c v2AnchorRef 0 = some i1)
      (h2 : pyFind (insertAfterAnchor c i1 (v2FileRefEntry r)) v2AnchorBuild 0 = some i2)
      (h3 : pyFind (insertAfterAnchor (insertAfterAnchor c i1 (v2FileRefEntry r)) i2
        (buildFileEntry r b)) anchorServices 0 = some si)
      (h4 : pyFind (insertAfterAnchor (insertAfterAnchor c i1 (v2FileRefEntry r)) i2
        (buildFileEntry r b)) anchorChildren si = none) :
      V2RunRel r b (some c) (.abortedAt 4)
  | abortPhase (c : List Char) (i1 i2 si ci : Nat) (h : containsSub c fileName = false)
      (h1 : pyFind c v2AnchorRef 0 = some i1)
      (h2 : pyFind (insertAfterAnchor c i1 (v2FileRefEntry r)) v2AnchorBuild 0 = some i2)
      (h3 : pyFind (insertAfterAnchor (insertAfterAnchor c i1 (v2FileRefEntry r)) i2
        (buildFileEntry r b)) anchorServices 0 = some si)
      (h4 : pyFind (insertAfterAnchor (insertAfterAnchor c i1 (v2FileRefEntry r)) i2
        (buildFileEntry r b)) anchorChildren si = some ci)
      (h5 : pyFind (insertAfterAnchor (insertAfterAnchor (insertAfterAnchor c i1
        (v2FileRefEntry r)) i2 (buildFileEntry r b)) ci (groupEntry r)) anchorPhase 0
        = none) :
      V2RunRel r b (some c) (.abortedAt 5)
  | abortFiles (c : List Char) (i1 i2 si ci pi2 : Nat) (h : containsSub c fileName = false)
      (h1 : pyFind c v2AnchorRef 0 = some i1)
      (h2 : pyFind (insertAfterAnchor c i1 (v2FileRefEntry r)) v2AnchorBuild 0 = some i2)
      (h3 : pyFind (insertAfterAnchor (insertAfterAnchor c i1 (v2FileRefEntry r)) i2
        (buildFileEntry r b)) anchorServices 0 = some si)
      (h4 : pyFind (insertAfterAnchor (insertAfterAnchor c i1 (v2FileRefEntry r)) i2
        (buildFileEntry r b)) anchorChildren si = some ci)
      (h5 : pyFind (insertAfterAnchor (insertAfterAnchor (insertAfterAnchor c i1
        (v2FileRefEntry r)) i2 (buildFileEntry r b)) ci (groupEntry r)) anchorPhase 0
        = some pi2)
      (h6 : pyFind (insertAfterAnchor (insertAfterAnchor (insertAfterAnchor c i1
        (v2FileRefEntry r)) i2 (buildFileEntry r b)) ci (groupEntry r)) anchorFiles pi2
        = none) :
      V2RunRel r b (some c) (.abortedAt 6)
  | success (c : List Char) (i1 i2 si ci pi2 fi : Nat) (h : containsSub c fileName = false)
      (h1 : pyFind c v2AnchorRef 0 = some i1)
      (h2 : pyFind (insertAfterAnchor c i1 (v2FileRefEntry r)) v2AnchorBuild 0 = some i2)
      (h3 : pyFind (insertAfterAnchor (insertAfterAnchor c i1 (v2FileRefEntry r)) i2
        (buildFileEntry r b)) anchorServices 0 = some si)
      (h4 : pyFind (insertAfterAnchor (insertAfterAnchor c i1 (v2FileRefEntry r)) i2
        (buildFileEntry r b)) anchorChildren si = some ci)
      (h5 : pyFind (insertAfterAnchor (insertAfterAnchor (insertAfterAnchor c i1
        (v2FileRefEntry r)) i2 (buildFileEntry r b)) ci (groupEntry r)) anchorPhase 0
        = some pi2)
      (h6 : pyFind (insertAfterAnchor (insertAfterAnchor (insertAfterAnchor c i1
        (v2FileRefEntry r)) i2 (buildFileEntry r b)) ci (groupEntry r)) anchorFiles pi2
        = some fi) :
      V2RunRel r b (some c)
        (.success (insertAfterAnchor (insertAfterAnchor (insertAfterAnchor
          (insertAfterAnchor c i1 (v2FileRefEntry r)) i2 (buildFileEntry r b)) ci
          (groupEntry r)) fi (phaseEntry b)))

/-! Nondeterministic run relation for add_file_to_project.py. -/

inductive LegacyRunRel (r b : List Char) : Option (List Char) → PatchOutcome → Prop where
  | notFound : LegacyRunRel r b none .notFound
  | already (c : List Char) (h : containsSub c fileName = true) :
      LegacyRunRel r b (some c) .already
  | abortRef (c : List Char) (h : containsSub c fileName = false)
      (h1 : pyFind c legacyAnchorRef 0 = none) :
      LegacyRunRel r b (some c) (.abortedAt 1)
  | abortBuild (c : List Char) (i1 : Nat) (h : containsSub c fileName = false)
      (h1 : pyFind c legacyAnchorRef 0 = some i1)
      (h2 : pyFind (insertAfterAnchor c i1 (legacyFileRefEntry r)) legacyAnchorBuild 0
        = none) :
      LegacyRunRel r b (some c) (.abortedAt 2)
  | abortServices (c : List Char) (i1 i2 : Nat) (h : containsSub c fileName = false)
      (h1 : pyFind c legacyAnchorRef 0 = some i1)
      (h2 : pyFind (insertAfterAnchor c i1 (legacyFileRefEntry r)) legacyAnchorBuild 0
        = some i2)
      (h3 : pyFind (insertAfterAnchor (insertAfterAnchor c i1 (legacyFileRefEntry r)) i2
        (buildFileEntry r b)) anchorServices 0 = none) :
      LegacyRunRel r b (some c) (.abortedAt 3)
  | success (c : List Char) (i1 i2 si : Nat) (h : containsSub c fileName = false)
      (h1 : pyFind c legacyAnchorRef 0 = some i1)
      (h2 : pyFind (insertAfterAnchor c i1 (legacyFileRefEntry r)) legacyAnchorBuild 0
        = some i2)
      (h3 : pyFind (insertAfterAnchor (insertAfterAnchor c i1 (legacyFileRefEntry r)) i2
        (buildFileEntry r b)) anchorServices 0 = some si) :
      LegacyRunRel r b (some c)
        (.success (legacyTail (insertAfterAnchor (insertAfterAnchor c i1
          (legacyFileRefEntry r)) i2 (buildFileEntry r b)) r b si))

theorem v2RunRel_total (fs : Option (List Char)) (r b : List Char) :
    V2RunRel r b fs (v2Run fs r b) := by
  cases fs with
  | none => exact .notFound
  | some c =>
    show V2RunRel r b (some c) (v2Patch c r b)
    cases hc : containsSub c fileName with
    | true =>
      rw [show v2Patch c r b = .already from by simp [v2Patch, hc]]
      exact .already c hc
    | false =>
      cases h1 : pyFind c v2AnchorRef 0 with
      | none =>
        rw [show v2Patch c r b = .abortedAt 1 from by simp [v2Patch, hc, h1]]
        exact .abortRef c hc h1
      | some i1 =>
        cases h2 : pyFind (insertAfterAnchor c i1 (v2FileRefEntry r)) v2AnchorBuild 0 with
        | none =>
          rw [show v2Patch c r b = .abortedAt 2 from by simp [v2Patch, hc, h1, h2]]
          exact .abortBuild c i1 hc h1 h2
        | some i2 =>
          cases h3 : pyFind (insertAfterAnchor (insertAfterAnchor c i1 (v2FileRefEntry r))
              i2 (buildFileEntry r b)) anchorServices 0 with
          | none =>
            rw [show v2Patch c r b = .abortedAt 3 from by simp [v2Patch, hc, h1, h2, h3]]
            exact .abortServices c i1 i2 hc h1 h2 h3
          | some si =>
            cases h4 : pyFind (insertAfterAnchor (insertAfterAnchor c i1
                (v2FileRefEntry r)) i2 (buildFileEntry r b)) anchorChildren si with
            | none =>
              rw [show v2Patch c r b = .abortedAt 4 from by
                simp [v2Patch, hc, h1, h2, h3, h4]]
              exact .abortChildren c i1 i2 si hc h1 h2 h3 h4
            | some ci =>
              cases h5 : pyFind (insertAfterAnchor (insertAfterAnchor (insertAfterAnchor
                  c i1 (v2FileRefEntry r)) i2 (buildFileEntry r b)) ci (groupEntry r))
                  anchorPhase 0 with
              | none =>
                rw [show v2Patch c r b = .abortedAt 5 from by
                  simp [v2Patch, hc, h1, h2, h3, h4, h5]]
                exact .abortPhase c i1 i2 si ci hc h1 h2 h3 h4 h5
              | some pi2 =>
                cases h6 : pyFind (insertAfterAnchor (insertAfterAnchor
                    (insertAfterAnchor c i1 (v2FileRefEntry r)) i2 (buildFileEntry r b))
                    ci (groupEntry r)) anchorFiles pi2 with
                | none =>
                  rw [show v2Patch c r b = .abortedAt 6 from by
                    simp [v2Patch, hc, h1, h2, h3, h4, h5, h6]]
                  exact .abortFiles c i1 i2 si ci pi2 hc h1 h2 h3 h4 h5 h6
                | some fi =>
                  rw [show v2Patch c r b = .success (insertAfterAnchor (insertAfterAnchor
                      (insertAfterAnchor (insertAfterAnchor c i1 (v2FileRefEntry r)) i2
                      (buildFileEntry r b)) ci (groupEntry r)) fi (phaseEntry b)) from by
                    simp [v2Patch, hc, h1, h2, h3, h4, h5, h6]]
                  exact .success c i1 i2 si ci pi2 fi hc h1 h2 h3 h4 h5 h6

theorem v2RunRel_det {r b : List Char} {fs : Option (List Char)}
    {o1 o2 : PatchOutcome} (H1 : V2RunRel r b fs o1) (H2 : V2RunRel r b fs o2) :
    o1 = o2 := by
  cases H1 <;> cases H2 <;> simp_all

theorem legacyRunRel_total (fs : Option (List Char)) (r b : List Char) :
    LegacyRunRel r b fs (legacyRun fs r b) := by
  cases fs with
  | none => exact .notFound
  | some c =>
    show LegacyRunRel r b (some c) (legacyPatch c r b)
    cases hc : containsSub c fileName with
    | true =>
      rw [show legacyPatch c r b = .already from by simp [legacyPatch, hc]]
      exact .already c hc
    | false =>
      cases h1 : pyFind c legacyAnchorRef 0 with
      | none =>
        rw [show legacyPatch c r b = .abortedAt 1 from by simp [legacyPatch, hc, h1]]
        exact .abortRef c hc h1
      | some i1 =>
        cases h2 : pyFind (insertAfterAnchor c i1 (legacyFileRefEntry r))
            legacyAnchorBuild 0 with
        | none =>
          rw [show legacyPatch c r b = .abortedAt 2 from by
            simp [legacyPatch, hc, h1, h2]]
          exact .abortBuild c i1 hc h1 h2
        | some i2 =>
          cases h3 : pyFind (insertAfterAnchor (insertAfterAnchor c i1
              (legacyFileRefEntry r)) i2 (buildFileEntry r b)) anchorServices 0 with
          | none =>
            rw [show legacyPatch c r b = .abortedAt 3 from by
              simp [legacyPatch, hc, h1, h2, h3]]
            exact .abortServices c i1 i2 hc h1 h2 h3
          | some si =>
            rw [show legacyPatch c r b = .success (legacyTail (insertAfterAnchor
                (insertAfterAnchor c i1 (legacyFileRefEntry r)) i2 (buildFileEntry r b))
                r b si) from by simp [legacyPatch, hc, h1, h2, h3]]
            exact .success c i1 i2 si hc h1 h2 h3

theorem legacyRunRel_det {r b : List Char} {fs : Option (List Char)}
    {o1 o2 : PatchOutcome} (H1 : LegacyRunRel r b fs o1)
    (H2 : LegacyRunRel r b fs o2) : o1 = o2 := by
  cases H1 <;> cases H2 <;> simp_all

/-! Concrete fixtures used by witnesses and counterexamples. -/

/-- A manifest with all anchors except the compilation-phase marker. -/
def c1Manifest : List Char :=
  ("// !$*UTF8*$!\n"
    ++ "\t\tAAAA0000 /* VideoPlayerParams.swift */ = \x7bisa = PBXFileReference; \x7d;\n"
    ++ "\t\tBBBB0000 /* VideoPlayerParams.swift in Sources */ = \x7bisa = PBXBuildFile; \x7d;\n"
    ++ "\t\tCCCC0000 /* Services */ = \x7b\n"
    ++ "\t\t\tchildren = (\n"
    ++ "\t\t\t\tDDDD0000 /* OldService.swift */,\n"
    ++ "\t\t\t);\n"
    ++ "\t\t\tpath = Services;\n"
    ++ "\t\t\x7d;\n").data

/-- A manifest with two child lists before the path marker of the Services
group: the forward search and the backward search pick different ones. -/
def c6M : List Char :=
  ("\t\tGGG0 /* Models */ = \x7b\n"
    ++ "\t\t\tchildren = (\n"
    ++ "\t\t\t\tX1X1 /* X.swift */,\n"
    ++ "\t\t\t);\n"
    ++ "\t\t\x7d;\n"
    ++ "\t\tGGG1 /* Services */ = \x7b\n"
    ++ "\t\t\tchildren = (\n"
    ++ "\t\t\t\tY1Y1 /* Y.swift */,\n"
    ++ "\t\t\t);\n"
    ++ "\t\t\tpath = Services;\n"
    ++ "\t\t\x7d;\n").data

/-- A manifest that already contains both the filename label and the
hard-coded identifier of add_to_group.py, and does not contain the
AuthenticationService.swift label. -/
def c9M : List Char :=
  ("\t\t4E2B8E372F37294600EE9F33 /* TransferModels.swift */ = \x7bisa = PBXFileReference; \x7d;\n"
    ++ "\t\tGGG1 /* Services */ = \x7b\n"
    ++ "\t\t\tchildren = (\n"
    ++ "\t\t\t\tY1Y1 /* Y.swift */,\n"
    ++ "\t\t\t);\n"
    ++ "\t\t\tpath = Services;\n"
    ++ "\t\t\x7d;\n").data

/-- The text written by the successful demo run of add_file_v2.py. -/
def demoOut : List Char :=
  (writesOf (v2Patch demoManifest demoIdR demoIdB)).getD []

def demoIdR2 : List Char := "3333333333333333333333R3".data
def demoIdB2 : List Char := "4444444444444444444444B4".data

/-- The pre-existing child of the Services group in demoManifest. -/
def oldChildLine : List Char := "\t\t\t\tDDDD0000 /* OldService.swift */,".data

/-- The pre-existing file of the compilation phase in demoManifest. -/
def oldPhaseLine : List Char :=
  "\t\t\t\tBBBB0000 /* VideoPlayerParams.swift in Sources */,".data

/-- The text written by the successful demo run of add_file_to_project.py. -/
def demoOutLegacy : List Char :=
  (writesOf (legacyPatch demoManifest demoIdR demoIdB)).getD []

/-- The text written by add_file_to_project.py on the manifest whose
compilation-phase marker is absent. -/
def c1LegacyOut : List Char :=
  (writesOf (legacyPatch c1Manifest demoIdR demoIdB)).getD []

/-- C1: the claim says: if any anchor resolution step fails, the operation
exits non-zero and the durable manifest is byte-identical to its prior
state; in particular a missing build-phase anchor (step 4) aborts.
add_file_v2.py conforms, but add_file_to_project.py violates it: on a
manifest whose compilation-phase marker is absent, its step 4 has no else
branch, so the script silently skips that section, still writes the
partially patched text, and exits 0.  This theorem evaluates the script at
such a manifest. -/
theorem claim_C1 :
    pyFind c1Manifest anchorPhase 0 = none ∧
    containsSub c1Manifest fileName = false ∧
    exitCodeOf (legacyPatch c1Manifest demoIdR demoIdB) = 0 ∧
    writesOf (legacyPatch c1Manifest demoIdR demoIdB) ≠ none ∧
    finalFs (some c1Manifest) (legacyPatch c1Manifest demoIdR demoIdB)
      ≠ some c1Manifest := by
  refine ⟨by decide, by decide, by decide, by decide, by decide⟩

/-- C8: when the manifest file does not exist, both scripts terminate with
a non-zero exit status before any read, nothing is written, and the durable
state is unchanged.  add_file_v2.py does this through its os.path.exists
guard; add_file_to_project.py through the uncaught FileNotFoundError of its
unguarded open(). -/
theorem claim_C8 (r b : List Char) :
    v2Run none r b = .notFound ∧
    legacyRun none r b = .notFound ∧
    exitCodeOf (v2Run none r b) = 1 ∧
    exitCodeOf (legacyRun none r b) = 1 ∧
    writesOf (v2Run none r b) = none ∧
    writesOf (legacyRun none r b) = none ∧
    finalFs none (v2Run none r b) = none ∧
    finalFs none (legacyRun none r b) = none :=
  ⟨rfl, rfl, rfl, rfl, rfl, rfl, rfl, rfl⟩

/-- C6 counterexample: the claim says every anchor search of the operation
selects the first occurrence of the marker at or after the search start
offset.  The children-list search of add_to_group.py is content.rfind: on
c6M the first occurrence of "children = (" is at 27, but the script resolves
the occurrence at 104 (the last one fully before the "path = Services;"
marker at 150) and produces a different text than the first-occurrence
policy would. -/
theorem claim_C6_counterexample :
    pyFind c6M anchorChildren 0 = some 27 ∧
    pyFind c6M anchorServicesPath 0 = some 150 ∧
    pyRfind c6M anchorChildren 150 = some 104 ∧
    (27 : Nat) < 104 ∧
    agRun c6M = some (insertAfterAnchor c6M 104 agEntry) ∧
    insertAfterAnchor c6M 104 agEntry ≠ insertAfterAnchor c6M 27 agEntry := by
  refine ⟨by decide, by decide, by decide, by decide, by decide, by decide⟩

/-- C6 amended: the forward anchor searches (content.find) of the patch
scripts select the first occurrence of the marker at or after the given
start offset, and the insertion point is the end of the line containing
that occurrence; the children-list search of add_to_group.py
(content.rfind) instead selects the last occurrence of the marker that is
fully contained before the given stop offset. -/
theorem claim_C6 :
    (∀ hay pat start i, pyFind hay pat start = some i →
      start ≤ i ∧ occursAt hay pat i = true ∧
        ∀ j, start ≤ j → occursAt hay pat j = true → i ≤ j) ∧
    (∀ hay pat stop i, pat ≠ [] → pyRfind hay pat stop = some i →
      occursAt hay pat i = true ∧ i + pat.length ≤ stop ∧
        ∀ j, occursAt hay pat j = true → j + pat.length ≤ stop → j ≤ i) ∧
    (∀ s entry i e, pyFind s ['\n'] i = some e →
      insertAfterAnchor s i entry = s.take (e + 1) ++ entry ++ '\n' :: s.drop (e + 1)) := by
  refine ⟨?_, ?_, ?_⟩
  · intro hay pat start i h
    obtain ⟨hs, ho, hmin⟩ := pyFind_some h
    refine ⟨hs, ho, ?_⟩
    intro j hj hoj
    by_contra hlt
    push_neg at hlt
    rw [hmin j hj hlt] at hoj
    cases hoj
  · intro hay pat stop i hp h
    exact pyRfind_some hp h
  · intro s entry i e h
    exact insertAfterAnchor_eq_some entry h

theorem claim_C6_witness :
    ((0 : Nat) ≤ 27 ∧ occursAt c6M anchorChildren 27 = true ∧
      ∀ j, 0 ≤ j → occursAt c6M anchorChildren j = true → 27 ≤ j) ∧
    (occursAt c6M anchorChildren 104 = true ∧
      104 + anchorChildren.length ≤ 150 ∧
      ∀ j, occursAt c6M anchorChildren j = true →
        j + anchorChildren.length ≤ 150 → j ≤ 104) :=
  ⟨claim_C6.1 c6M anchorChildren 0 27 (by decide),
   claim_C6.2.1 c6M anchorChildren 150 104 (by decide) (by decide)⟩

/-- C7: each section insertion is a pure prefix-preserving splice.  The
anchor line's terminating newline is the first newline at or after the
resolved anchor offset, the output is the prefix of the input up to and
including that newline, then the entry line and a newline, then the rest of
the input unchanged; and the prefix and suffix reassemble the input
byte-for-byte. -/
theorem claim_C7 (s entry : List Char) (i e : Nat) (h : pyFind s ['\n'] i = some e) :
    insertAfterAnchor s i entry = s.take (e + 1) ++ entry ++ '\n' :: s.drop (e + 1) ∧
    s[e]? = some '\n' ∧
    i ≤ e ∧
    (∀ j, i ≤ j → j < e → s[j]? ≠ some '\n') ∧
    s.take (e + 1) ++ s.drop (e + 1) = s := by
  obtain ⟨hle, ho, hmin⟩ := pyFind_some h
  refine ⟨insertAfterAnchor_eq_some entry h, nl_at_of_pyFind h, hle, ?_,
    List.take_append_drop (e + 1) s⟩
  intro j hj1 hj2 hget
  have := hmin j hj1 hj2
  rw [occursAt_single.mpr hget] at this
  cases this

theorem claim_C7_witness :
    insertAfterAnchor demoManifest 0 "XX".data
      = demoManifest.take (13 + 1) ++ "XX".data ++ '\n' :: demoManifest.drop (13 + 1) ∧
    demoManifest[13]? = some '\n' ∧
    (0 : Nat) ≤ 13 ∧
    (∀ j, 0 ≤ j → j < 13 → demoManifest[j]? ≠ some '\n') ∧
    demoManifest.take (13 + 1) ++ demoManifest.drop (13 + 1) = demoManifest :=
  claim_C7 demoManifest "XX".data 0 13 (by decide)

/-- C10: the patch transform is deterministic modulo identifier generation.
The run relations pick the two identifiers nondeterministically and are
total (they relate every file-system state to the outcome the script
computes); once the identifiers are fixed, the outcome (success or failure,
exit status and written text) is uniquely determined by the manifest text
alone, for both add_file_v2.py and add_file_to_project.py. -/
theorem claim_C10 :
    (∀ fs r b, V2RunRel r b fs (v2Run fs r b)) ∧
    (∀ (fs : Option (List Char)) (r b : List Char) (o1 o2 : PatchOutcome),
      V2RunRel r b fs o1 → V2RunRel r b fs o2 → o1 = o2) ∧
    (∀ fs r b, LegacyRunRel r b fs (legacyRun fs r b)) ∧
    (∀ (fs : Option (List Char)) (r b : List Char) (o1 o2 : PatchOutcome),
      LegacyRunRel r b fs o1 → LegacyRunRel r b fs o2 → o1 = o2) :=
  ⟨v2RunRel_total, fun _ _ _ _ _ H1 H2 => v2RunRel_det H1 H2,
   legacyRunRel_total, fun _ _ _ _ _ H1 H2 => legacyRunRel_det H1 H2⟩

theorem claim_C10_witness :
    v2Run (some demoManifest) demoIdR demoIdB
      = .success (insertAfterAnchor (insertAfterAnchor (insertAfterAnchor
        (insertAfterAnchor demoManifest 25 (v2FileRefEntry demoIdR)) 321
        (buildFileEntry demoIdR demoIdB)) 614 (groupEntry demoIdR)) 815
        (phaseEntry demoIdB)) :=
  claim_C10.2.1 (some demoManifest) demoIdR demoIdB _ _
    (claim_C10.1 (some demoManifest) demoIdR demoIdB)
    (V2RunRel.success demoManifest 25 321 573 614 784 815 (by decide) (by decide)
      (by decide) (by decide) (by decide) (by decide) (by decide))

/-- C9: add_to_group.py performs no already-registered check.  Whenever the
"path = Services;" marker resolves and some "children = (" occurrence lies
fully before it, the backward search succeeds and the script inserts exactly
one membership line (its hard-coded identifier + label pair) and writes the
result — there is no hypothesis about the filename or identifier being
absent, so insertion happens even when they already occur, and the
AuthenticationService.swift confirmation never blocks (its failure branch
is pass).  On the concrete manifest c9M, which already contains both the
filename and the identifier and lacks the confirming label, two consecutive
runs insert two identical membership lines. -/
theorem claim_C9 :
    (∀ content si j, pyFind content anchorServicesPath 0 = some si →
      occursAt content anchorChildren j = true →
      j + anchorChildren.length ≤ si →
      ∃ ci out, pyRfind content anchorChildren si = some ci ∧
        agRun content = some out ∧
        out = insertAfterAnchor content ci agEntry ∧
        ∃ P Q, linesOf content = P ++ Q ∧ linesOf out = P ++ agEntry :: Q) ∧
    (containsSub c9M fileName = true ∧
      containsSub c9M agFileRefId = true ∧
      containsSub c9M "AuthenticationService.swift".data = false ∧
      ∃ o1 o2, agRun c9M = some o1 ∧ agRun o1 = some o2 ∧
        (linesOf o2).count agEntry = (linesOf c9M).count agEntry + 2) := by
  constructor
  · intro content si j hs ho hj
    have hex := pyRfind_isSome (by decide : anchorChildren ≠ ([] : List Char)) ho hj
    obtain ⟨ci, hci⟩ := Option.isSome_iff_exists.mp hex
    refine ⟨ci, insertAfterAnchor content ci agEntry, hci, ?_, rfl, ?_⟩
    · simp [agRun, hs, hci]
    · exact insert_lines content agEntry ci (by decide)
  · refine ⟨by decide, by decide, by decide, ?_⟩
    refine ⟨(agRun c9M).getD [], (agRun ((agRun c9M).getD [])).getD [],
      by decide, by decide, by decide⟩

theorem claim_C9_witness :
    ∃ ci out, pyRfind c9M anchorChildren 159 = some ci ∧
      agRun c9M = some out ∧
      out = insertAfterAnchor c9M ci agEntry ∧
      ∃ P Q, linesOf c9M = P ++ Q ∧ linesOf out = P ++ agEntry :: Q :=
  claim_C9.1 c9M 159 113 (by decide) (by decide) (by decide)

/-- C2: on every successful add_file_v2.py run, the four formatted entries
built from the two generated identifiers are all present in the output
text; the build entry's fileRef field carries exactly the reference
identifier, the group-membership line carries that same reference
identifier, and the build-phase-membership line carries the build
identifier (the trailing equalities exhibit the identifier fields of the
three membership entries). -/
theorem claim_C2 (content r b out : List Char)
    (h : v2Patch content r b = .success out) (hr : '\n' ∉ r) (hb : '\n' ∉ b) :
    v2FileRefEntry r <:+: out ∧
    buildFileEntry r b <:+: out ∧
    groupEntry r <:+: out ∧
    phaseEntry b <:+: out ∧
    buildFileEntry r b
      = ("\t\t".data ++ b
          ++ " /* TransferModels.swift in Sources */ = \x7bisa = PBXBuildFile; fileRef = ".data)
        ++ r ++ " /* TransferModels.swift */; \x7d;".data ∧
    groupEntry r = "\t\t\t\t".data ++ r ++ " /* TransferModels.swift */,".data ∧
    phaseEntry b = "\t\t\t\t".data ++ b ++ " /* TransferModels.swift in Sources */,".data := by
  obtain ⟨hc, i1, i2, si, ci, pi2, fi, h1, h2, h3, h4, h5, h6, hout⟩ :=
    v2Patch_success_elim h
  subst hout
  have d1 : '\n' ∉ (v2FileRefEntry r ++ ['\n']).dropLast :=
    nl_not_mem_dropLast_concat (nl_not_mem_v2FileRefEntry hr)
  have d2 : '\n' ∉ (buildFileEntry r b ++ ['\n']).dropLast :=
    nl_not_mem_dropLast_concat (nl_not_mem_buildFileEntry hr hb)
  have d3 : '\n' ∉ (groupEntry r ++ ['\n']).dropLast :=
    nl_not_mem_dropLast_concat (nl_not_mem_groupEntry hr)
  have s1 := insert_has_entry content (v2FileRefEntry r) i1
  have s1b := insert_keeps (buildFileEntry r b) i2 d1 s1
  have s1c := insert_keeps (groupEntry r) ci d1 s1b
  have s1d := insert_keeps (phaseEntry b) fi d1 s1c
  have s2 := insert_has_entry (insertAfterAnchor content i1 (v2FileRefEntry r))
    (buildFileEntry r b) i2
  have s2c := insert_keeps (groupEntry r) ci d2 s2
  have s2d := insert_keeps (phaseEntry b) fi d2 s2c
  have s3 := insert_has_entry (insertAfterAnchor (insertAfterAnchor content i1
    (v2FileRefEntry r)) i2 (buildFileEntry r b)) (groupEntry r) ci
  have s3d := insert_keeps (phaseEntry b) fi d3 s3
  have s4 := insert_has_entry (insertAfterAnchor (insertAfterAnchor (insertAfterAnchor
    content i1 (v2FileRefEntry r)) i2 (buildFileEntry r b)) ci (groupEntry r))
    (phaseEntry b) fi
  refine ⟨?_, ?_, ?_, ?_, rfl, rfl, rfl⟩
  · exact (sub_append_right ['\n'] (sub_refl _)).trans s1d
  · exact (sub_append_right ['\n'] (sub_refl _)).trans s2d
  · exact (sub_append_right ['\n'] (sub_refl _)).trans s3d
  · exact (sub_append_right ['\n'] (sub_refl _)).trans s4

theorem claim_C2_witness :
    v2FileRefEntry demoIdR <:+: demoOut ∧
    buildFileEntry demoIdR demoIdB <:+: demoOut ∧
    groupEntry demoIdR <:+: demoOut ∧
    phaseEntry demoIdB <:+: demoOut ∧
    buildFileEntry demoIdR demoIdB
      = ("\t\t".data ++ demoIdB
          ++ " /* TransferModels.swift in Sources */ = \x7bisa = PBXBuildFile; fileRef = ".data)
        ++ demoIdR ++ " /* TransferModels.swift */; \x7d;".data ∧
    groupEntry demoIdR = "\t\t\t\t".data ++ demoIdR ++ " /* TransferModels.swift */,".data ∧
    phaseEntry demoIdB
      = "\t\t\t\t".data ++ demoIdB ++ " /* TransferModels.swift in Sources */,".data :=
  claim_C2 demoManifest demoIdR demoIdB demoOut (by decide) (by decide) (by decide)

/-- C3: the patch is idempotent at the public interface, for both patch
scripts.  The output of a successful run contains the filename label
(inside the inserted reference entry), so a second run for the same
filename — with whatever identifiers it generates — hits the substring
registration check and short-circuits to the already-registered no-op:
exit status 0 and the text unchanged. -/
theorem claim_C3 (content r b out r2 b2 : List Char) (hr : '\n' ∉ r) :
    (v2Patch content r b = .success out →
      v2Patch out r2 b2 = .already ∧
      exitCodeOf (v2Patch out r2 b2) = 0 ∧
      finalFs (some out) (v2Patch out r2 b2) = some out) ∧
    (legacyPatch content r b = .success out →
      legacyPatch out r2 b2 = .already ∧
      exitCodeOf (legacyPatch out r2 b2) = 0 ∧
      finalFs (some out) (legacyPatch out r2 b2) = some out) := by
  constructor
  · intro h
    obtain ⟨hc, i1, i2, si, ci, pi2, fi, h1, h2, h3, h4, h5, h6, hout⟩ :=
      v2Patch_success_elim h
    subst hout
    have d3 : '\n' ∉ (groupEntry r ++ ['\n']).dropLast :=
      nl_not_mem_dropLast_concat (nl_not_mem_groupEntry hr)
    have s3 := insert_has_entry (insertAfterAnchor (insertAfterAnchor content i1
      (v2FileRefEntry r)) i2 (buildFileEntry r b)) (groupEntry r) ci
    have s3d := insert_keeps (phaseEntry b) fi d3 s3
    have hfn : fileName <:+: insertAfterAnchor (insertAfterAnchor (insertAfterAnchor
        (insertAfterAnchor content i1 (v2FileRefEntry r)) i2 (buildFileEntry r b)) ci
        (groupEntry r)) fi (phaseEntry b) :=
      ((fileName_sub_groupEntry r).trans (sub_append_right ['\n'] (sub_refl _))).trans s3d
    have hcont := containsSub_true_iff.mpr hfn
    have halready : v2Patch (insertAfterAnchor (insertAfterAnchor (insertAfterAnchor
        (insertAfterAnchor content i1 (v2FileRefEntry r)) i2 (buildFileEntry r b)) ci
        (groupEntry r)) fi (phaseEntry b)) r2 b2 = .already := by
      simp [v2Patch, hcont]
    refine ⟨halready, ?_, ?_⟩
    · rw [halready]
      rfl
    · rw [halready]
      rfl
  · intro h
    obtain ⟨hc, i1, i2, si, h1, h2, h3, hout⟩ := legacyPatch_success_elim h
    subst hout
    have d1 : '\n' ∉ (legacyFileRefEntry r ++ ['\n']).dropLast :=
      nl_not_mem_dropLast_concat (nl_not_mem_legacyFileRefEntry hr)
    have s1 := insert_has_entry content (legacyFileRefEntry r) i1
    have s1b := insert_keeps (buildFileEntry r b) i2 d1 s1
    have s1c := legacyStep3_keeps r si d1 s1b
    have s1d := legacyStep4_keeps b d1 s1c
    have hfn : fileName <:+: legacyTail (insertAfterAnchor (insertAfterAnchor content
        i1 (legacyFileRefEntry r)) i2 (buildFileEntry r b)) r b si :=
      ((fileName_sub_legacyFileRefEntry r).trans
        (sub_append_right ['\n'] (sub_refl _))).trans s1d
    have hcont := containsSub_true_iff.mpr hfn
    have halready : legacyPatch (legacyTail (insertAfterAnchor (insertAfterAnchor
        content i1 (legacyFileRefEntry r)) i2 (buildFileEntry r b)) r b si) r2 b2
        = .already := by
      simp [legacyPatch, hcont]
    refine ⟨halready, ?_, ?_⟩
    · rw [halready]
      rfl
    · rw [halready]
      rfl

theorem claim_C3_witness :
    (v2Patch demoOut demoIdR2 demoIdB2 = .already ∧
      exitCodeOf (v2Patch demoOut demoIdR2 demoIdB2) = 0 ∧
      finalFs (some demoOut) (v2Patch demoOut demoIdR2 demoIdB2) = some demoOut) ∧
    (legacyPatch demoOutLegacy demoIdR2 demoIdB2 = .already ∧
      exitCodeOf (legacyPatch demoOutLegacy demoIdR2 demoIdB2) = 0 ∧
      finalFs (some demoOutLegacy) (legacyPatch demoOutLegacy demoIdR2 demoIdB2)
        = some demoOutLegacy) :=
  ⟨(claim_C3 demoManifest demoIdR demoIdB demoOut demoIdR2 demoIdB2
      (by decide)).1 (by decide),
   (claim_C3 demoManifest demoIdR demoIdB demoOutLegacy demoIdR2 demoIdB2
      (by decide)).2 (by decide)⟩

/-- C5: the claim covers both patch scripts.  For add_file_v2.py it holds:
a successful run changes the manifest only by adding exactly four new
lines — the reference entry, the build entry, the group-membership line and
the build-phase-membership line.  All lines of the input are kept, in order
(sublist), the multiset of output lines is the multiset of input lines plus
exactly those four entries, and none of the four was a line of the input
(the input passed the registration check, so it does not contain the
filename label that each entry carries).  For add_file_to_project.py it
fails: on the manifest without a compilation-phase marker that script
neither short-circuits nor aborts, exits 0, and its written output contains
exactly THREE new lines — no build-phase-membership line — because its
step 4 is silently skipped. -/
theorem claim_C5 :
    (∀ content r b out, v2Patch content r b = .success out →
      '\n' ∉ r → '\n' ∉ b →
      List.Sublist (linesOf content) (linesOf out) ∧
      Multiset.ofList (linesOf out)
        = Multiset.ofList (linesOf content)
          + Multiset.ofList [v2FileRefEntry r, buildFileEntry r b,
              groupEntry r, phaseEntry b] ∧
      v2FileRefEntry r ∉ linesOf content ∧
      buildFileEntry r b ∉ linesOf content ∧
      groupEntry r ∉ linesOf content ∧
      phaseEntry b ∉ linesOf content) ∧
    (containsSub c1Manifest fileName = false ∧
      legacyPatch c1Manifest demoIdR demoIdB = .success c1LegacyOut ∧
      exitCodeOf (legacyPatch c1Manifest demoIdR demoIdB) = 0 ∧
      Multiset.ofList (linesOf c1LegacyOut)
        = Multiset.ofList (linesOf c1Manifest)
          + Multiset.ofList [legacyFileRefEntry demoIdR,
              buildFileEntry demoIdR demoIdB, groupEntry demoIdR] ∧
      phaseEntry demoIdB ∉ linesOf c1LegacyOut) := by
  constructor
  · intro content r b out h hr hb
    obtain ⟨hc, i1, i2, si, ci, pi2, fi, h1, h2, h3, h4, h5, h6, hout⟩ :=
      v2Patch_success_elim h
    subst hout
    have f1 := insert_lines_facts content (v2FileRefEntry r) i1
      (nl_not_mem_v2FileRefEntry hr)
    have f2 := insert_lines_facts (insertAfterAnchor content i1 (v2FileRefEntry r))
      (buildFileEntry r b) i2 (nl_not_mem_buildFileEntry hr hb)
    have f3 := insert_lines_facts (insertAfterAnchor (insertAfterAnchor content i1
      (v2FileRefEntry r)) i2 (buildFileEntry r b)) (groupEntry r) ci
      (nl_not_mem_groupEntry hr)
    have f4 := insert_lines_facts (insertAfterAnchor (insertAfterAnchor
      (insertAfterAnchor content i1 (v2FileRefEntry r)) i2 (buildFileEntry r b)) ci
      (groupEntry r)) (phaseEntry b) fi (nl_not_mem_phaseEntry hb)
    have hni : ∀ w : List Char, fileName <:+: w → w ∉ linesOf content := by
      intro w hw hmem
      have hsub := hw.trans (mem_linesOf_sub hmem)
      rw [containsSub_true_iff.mpr hsub] at hc
      cases hc
    refine ⟨((f1.1.trans f2.1).trans f3.1).trans f4.1, ?_,
      hni _ (fileName_sub_v2FileRefEntry r), hni _ (fileName_sub_buildFileEntry r b),
      hni _ (fileName_sub_groupEntry r), hni _ (fileName_sub_phaseEntry b)⟩
    rw [f4.2, f3.2, f2.2, f1.2]
    simp only [← Multiset.cons_coe, Multiset.coe_nil, Multiset.add_cons, add_zero]
    rw [Multiset.cons_swap (buildFileEntry r b) (v2FileRefEntry r),
      Multiset.cons_swap (groupEntry r) (v2FileRefEntry r),
      Multiset.cons_swap (phaseEntry b) (v2FileRefEntry r),
      Multiset.cons_swap (groupEntry r) (buildFileEntry r b),
      Multiset.cons_swap (phaseEntry b) (buildFileEntry r b),
      Multiset.cons_swap (phaseEntry b) (groupEntry r)]
  · refine ⟨by decide, by decide, by decide, by decide, by decide⟩

theorem claim_C5_witness :
    List.Sublist (linesOf demoManifest) (linesOf demoOut) ∧
    Multiset.ofList (linesOf demoOut)
      = Multiset.ofList (linesOf demoManifest)
        + Multiset.ofList [v2FileRefEntry demoIdR, buildFileEntry demoIdR demoIdB,
            groupEntry demoIdR, phaseEntry demoIdB] ∧
    v2FileRefEntry demoIdR ∉ linesOf demoManifest ∧
    buildFileEntry demoIdR demoIdB ∉ linesOf demoManifest ∧
    groupEntry demoIdR ∉ linesOf demoManifest ∧
    phaseEntry demoIdB ∉ linesOf demoManifest :=
  claim_C5.1 demoManifest demoIdR demoIdB demoOut (by decide) (by decide) (by decide)

/-- C4 counterexample: the claim says the group-membership entry is
appended to the child list and the phase entry to the files list, each
becoming the LAST element of its list.  On the demo manifest the successful
run places both new membership lines immediately after the list-opening
lines, BEFORE the pre-existing elements: in the output the group entry
occurs at a smaller offset than the pre-existing child, and the phase entry
at a smaller offset than the pre-existing phase file. -/
theorem claim_C4_counterexample :
    v2Patch demoManifest demoIdR demoIdB = .success demoOut ∧
    (pyFind demoOut (groupEntry demoIdR) 0).isSome = true ∧
    (pyFind demoOut oldChildLine 0).isSome = true ∧
    (pyFind demoOut (groupEntry demoIdR) 0).getD 0
      < (pyFind demoOut oldChildLine 0).getD 0 ∧
    (pyFind demoOut (phaseEntry demoIdB) 0).isSome = true ∧
    (pyFind demoOut oldPhaseLine 0).isSome = true ∧
    (pyFind demoOut (phaseEntry demoIdB) 0).getD 0
      < (pyFind demoOut oldPhaseLine 0).getD 0 := by
  refine ⟨by decide, by decide, by decide, by decide, by decide, by decide, by decide⟩

/-- C4 amended: the group-membership entry and the build-phase-membership
entry are spliced in immediately after the end of the line on which the
list-opening marker (children-list and files-list opener) resolved — the
whole marker occurrence lies on that line — so each new identifier+label
pair becomes the FIRST element of its list in the output text, before every
pre-existing element, not the last. -/
theorem claim_C4 (s r b : List Char) (si pi2 ci fi e f : Nat) :
    (pyFind s anchorChildren si = some ci → pyFind s ['\n'] ci = some e →
      ci + anchorChildren.length ≤ e + 1 ∧
      insertAfterAnchor s ci (groupEntry r)
        = s.take (e + 1) ++ groupEntry r ++ '\n' :: s.drop (e + 1)) ∧
    (pyFind s anchorFiles pi2 = some fi → pyFind s ['\n'] fi = some f →
      fi + anchorFiles.length ≤ f + 1 ∧
      insertAfterAnchor s fi (phaseEntry b)
        = s.take (f + 1) ++ phaseEntry b ++ '\n' :: s.drop (f + 1)) := by
  constructor
  · intro hC hE
    exact ⟨anchor_line_spans (by decide) (pyFind_some hC).2.1 hE,
      insertAfterAnchor_eq_some _ hE⟩
  · intro hF hE
    exact ⟨anchor_line_spans (by decide) (pyFind_some hF).2.1 hE,
      insertAfterAnchor_eq_some _ hE⟩

theorem claim_C4_witness :
    (267 + anchorChildren.length ≤ 279 + 1 ∧
      insertAfterAnchor demoManifest 267 (groupEntry demoIdR)
        = demoManifest.take (279 + 1) ++ groupEntry demoIdR
          ++ '\n' :: demoManifest.drop (279 + 1)) ∧
    (411 + anchorFiles.length ≤ 420 + 1 ∧
      insertAfterAnchor demoManifest 411 (phaseEntry demoIdB)
        = demoManifest.take (420 + 1) ++ phaseEntry demoIdB
          ++ '\n' :: demoManifest.drop (420 + 1)) :=
  ⟨(claim_C4 demoManifest demoIdR demoIdB 0 0 267 411 279 420).1 (by decide) (by decide),
   (claim_C4 demoManifest demoIdR demoIdB 0 0 267 411 279 420).2 (by decide) (by decide)⟩
